import Mathlib

/-!
Shallow embedding of the nand2tetris-rs hardware simulator sources.

Embedded files:
* `src/hardware_simulator/src/parser/instruction.rs` — the plain-`&str` parser
  (`symbol`, `bus_range`, `symbol_bus`, `parse_arg`, `parse_args`,
  `parse_instruction`) together with `Symbol`, `BusRange`, `Argument`,
  `Instruction` and `impl TryFrom<&str> for Symbol`.
* `src/hardware_simulator/src/parser/mod.rs` — the `Span`-based tokenizer
  (`symbol` with `take_while1`, here `symbolSpan`) and the comment/whitespace
  skippers `generic_space1` / `generic_space0`;
  `impl TryFrom<Span> for Symbol` there has character-for-character the same
  logic as the `&str` version, so both are embedded by one `Symbol.tryFrom`.
* `src/hardware_simulator/src/model/builtin.rs` — `get_builtin` and the `Nand`
  primitive.
* `src/hardware_simulator/src/model/chip/native/mod.rs` — `ConnEdge`,
  `NativeChip` and its `ChipObject` impl (whose `eval`/`clock` are `todo!()`).

Source text is modelled as `List Char` (Rust `&str` restricted to its
character sequence; all inputs of interest are ASCII).  Rust panics
(`todo!()`, `unwrap`, out-of-bounds indexing) are modelled as `none` of an
outer `Option`; `nom`'s `IResult` is modelled by `PRes` below.
-/

namespace Hdl

/-! ### Character classes (the Rust `char` predicates used by the parsers) -/

/-- The characters matched by nom's `multispace0`/`multispace1`:
space, tab, carriage return, line feed. -/
def isMultispaceB (c : Char) : Bool :=
  decide (c.toNat = 32 ∨ c.toNat = 9 ∨ c.toNat = 13 ∨ c.toNat = 10)

/-- Rust `char::is_ascii_whitespace`: space, tab, line feed, form feed,
carriage return. -/
def isAsciiWsB (c : Char) : Bool :=
  decide (c.toNat = 32 ∨ c.toNat = 9 ∨ c.toNat = 10 ∨ c.toNat = 12 ∨ c.toNat = 13)

/-- Rust `char::is_ascii` (equivalently: the byte/char is below 0x80). -/
def isAsciiB (c : Char) : Bool :=
  decide (c.toNat < 128)

/-- The predicate of both `symbol` tokenizers:
`matches!(c, 'a'..='z' | 'A'..='Z' | '0'..='9')`. -/
def isAlnumB (c : Char) : Bool :=
  decide ((97 ≤ c.toNat ∧ c.toNat ≤ 122) ∨ (65 ≤ c.toNat ∧ c.toNat ≤ 90) ∨
    (48 ≤ c.toNat ∧ c.toNat ≤ 57))

/-- An ASCII decimal digit `'0'..='9'`. -/
def isDigitB (c : Char) : Bool :=
  decide (48 ≤ c.toNat ∧ c.toNat ≤ 57)

/-- The character class of `is_not("]")`: any character other than `']'`. -/
def isNotRBrkB (c : Char) : Bool :=
  decide (c.toNat ≠ 93)

/-- The character class of `is_not("\n")`: any character other than `'\n'`. -/
def isNotNlB (c : Char) : Bool :=
  decide (c.toNat ≠ 10)

/-- Rust `char::is_whitespace` (the Unicode `White_Space` property), used by
`str::trim_start` in `parse_arg`. -/
def isRustWhitespaceB (c : Char) : Bool :=
  decide ((9 ≤ c.toNat ∧ c.toNat ≤ 13) ∨ c.toNat = 32 ∨ c.toNat = 133 ∨
    c.toNat = 160 ∨ c.toNat = 5760 ∨ (8192 ≤ c.toNat ∧ c.toNat ≤ 8202) ∨
    c.toNat = 8232 ∨ c.toNat = 8233 ∨ c.toNat = 8239 ∨ c.toNat = 8287 ∨
    c.toNat = 12288)

/-! ### Numeric parsing (`usize::from_str_radix` / `u16::from_str_radix`,
radix 10) -/

/-- The numeric value of a list of decimal digits (most significant first). -/
def decimalValue (s : List Char) : Nat :=
  s.foldl (fun a c => a * 10 + (c.toNat - 48)) 0

/-- `usize::MAX` on the 64-bit targets the crate is built for. -/
def usizeMax : Nat := 2 ^ 64 - 1

/-- `u16::MAX`. -/
def u16Max : Nat := 65535

/-- Rust `from_str_radix(src, 10)` for an unsigned integer type with maximum
value `max`: an optional leading `'+'`, then one or more decimal digits; the
stepwise checked arithmetic fails exactly when the value exceeds `max`.
A leading `'-'` is not accepted for unsigned types (it is not a digit). -/
def from_str_radix (max : Nat) (src : List Char) : Option Nat :=
  match src with
  | [] => none
  | c :: rest =>
    let digits := if c = '+' then rest else c :: rest
    if (!digits.isEmpty) && digits.all isDigitB then
      if decimalValue digits ≤ max then some (decimalValue digits) else none
    else none

/-! ### The parse-result type (nom's `IResult`)

`ok rem val` is `Ok((rem, val))`; `err` is `Err(Err::Error(_))` (recoverable);
`fail input` is `Err(Err::Failure(_))` carrying the offending input text
(the only data of the `Failure`s built in `instruction.rs`); `incomplete` is
`Err(Err::Incomplete(_))` from the `streaming` combinators. -/
inductive PRes (α : Type) where
  | ok (rem : List Char) (val : α)
  | err
  | fail (input : List Char)
  | incomplete
deriving DecidableEq, Repr

/-- nom `character::streaming::char(c)`: `incomplete` on empty input,
`err` on a non-matching first character. -/
def charP (c : Char) (s : List Char) : PRes Unit :=
  match s with
  | [] => .incomplete
  | x :: rest => if x = c then .ok rest () else .err

/-- nom `bytes::complete::tag(pat)`: `err` when the input does not start with
`pat` (also when it is merely too short). -/
def tagP : List Char → List Char → PRes Unit
  | [], s => .ok s ()
  | _ :: _, [] => .err
  | p :: ps, c :: cs => if c = p then tagP ps cs else .err

/-- nom `multispace0`, viewed as the remaining input. -/
def multispace0 (s : List Char) : List Char :=
  s.dropWhile isMultispaceB

/-! ### Symbols (`instruction.rs` lines 29–87, `mod.rs` lines 59–94) -/

/-- The `Value` enum: the two boolean literals. -/
inductive Value where
  | True : Value
  | False : Value
deriving DecidableEq, Repr

/-- The `Symbol` enum: a name, a boolean literal, or a `usize` literal. -/
inductive Symbol where
  | Name (text : List Char)
  | Value (v : Value)
  | Number (n : Nat)
deriving DecidableEq, Repr

/-- `Result<Symbol, HdlParseError>`: `HdlParseError` has the single variant
`BadSymbol`, carrying the offending text. -/
inductive SymbolResult where
  | ok (sym : Symbol)
  | badSymbol (text : List Char)
deriving DecidableEq, Repr

/-- The guard of both `TryFrom` impls:
`value.is_ascii() && value.chars().all(|c| !c.is_ascii_whitespace())`. -/
def symbolTextOk (s : List Char) : Bool :=
  s.all isAsciiB && s.all (fun c => !isAsciiWsB c)

/-- `impl TryFrom<&str> for Symbol` (`instruction.rs` lines 68–87); the
`Span` version in `mod.rs` lines 75–94 has the identical body. -/
def Symbol.tryFrom (value : List Char) : SymbolResult :=
  if symbolTextOk value then
    match from_str_radix usizeMax value with
    | some num => .ok (.Number num)
    | none =>
      if value = "true".data then .ok (.Value .True)
      else if value = "false".data then .ok (.Value .False)
      else .ok (.Name value)
  else .badSymbol value

/-! ### `instruction.rs` parsers -/

/-- A bus range; both fields are `u16` in the source (`stop` is the source's
field `end`, a Lean keyword).  The parser only constructs values at most
`u16Max`. -/
structure BusRange where
  start : Nat
  stop : Nat
deriving DecidableEq, Repr

/-- One wiring directive: `internal[bus] = external[bus]`. -/
structure Argument where
  internal : Symbol
  internal_bus : Option BusRange
  external : Symbol
  external_bus : Option BusRange
deriving DecidableEq, Repr

/-- One parts-list entry: `chip_name ( arguments ) ;`. -/
structure Instruction where
  chip_name : Symbol
  inputs : List Argument
deriving DecidableEq, Repr

/-- `instruction.rs` `symbol`: `delimited(multispace0, take_while(alnum),
multispace0)`.  `take_while` (without `1`) never fails, so the parser always
succeeds; the result is `(remainder, token)`. -/
def symbol (s : List Char) : List Char × List Char :=
  let s1 := multispace0 s
  (multispace0 (s1.dropWhile isAlnumB), s1.takeWhile isAlnumB)

/-- nom `bytes::complete::is_not("]")`: one or more characters other than
`']'`; `err` when the first character is `']'` or the input is empty. -/
def is_not_rb (s : List Char) : PRes (List Char) :=
  let t := s.takeWhile isNotRBrkB
  if t.isEmpty then .err else .ok (s.dropWhile isNotRBrkB) t

/-- `instruction.rs` `bus_range` (lines 97–119):
`delimited(multispace0, delimited(char('['), is_not("]"), char(']')),
multispace0)` and-then `separated_pair(symbol, tag(".."), symbol)` applied to
the bracketed text (the inner remainder is discarded by `and_then`), followed
by `u16::from_str_radix` on both tokens; a bound that does not parse yields
`Err(Failure)` carrying that bound's text (the start bound is reported first
when both fail). -/
def bus_range (s : List Char) : PRes BusRange :=
  match charP '[' (multispace0 s) with
  | .ok s2 _ =>
    match is_not_rb s2 with
    | .ok s3 inner =>
      match charP ']' s3 with
      | .ok s4 _ =>
        let rem := multispace0 s4
        let (i1, startTok) := symbol inner
        match tagP "..".data i1 with
        | .ok i2 _ =>
          let (_, endTok) := symbol i2
          match from_str_radix u16Max startTok, from_str_radix u16Max endTok with
          | some a, some b => .ok rem ⟨a, b⟩
          | none, _ => .fail startTok
          | some _, none => .fail endTok
        | .err => .err
        | .fail i => .fail i
        | .incomplete => .incomplete
      | .err => .err
      | .fail i => .fail i
      | .incomplete => .incomplete
    | .err => .err
    | .fail i => .fail i
    | .incomplete => .incomplete
  | .err => .err
  | .fail i => .fail i
  | .incomplete => .incomplete

/-- `instruction.rs` `symbol_bus`: `tuple((symbol, opt(complete(bus_range))))`.
`complete` demotes `Incomplete` to `Error` and `opt` recovers from `Error`,
but a `Failure` from `bus_range` propagates. -/
def symbol_bus (s : List Char) : PRes (List Char × Option BusRange) :=
  let (r1, tok) := symbol s
  match bus_range r1 with
  | .ok r2 b => .ok r2 (tok, some b)
  | .fail i => .fail i
  | .err => .ok r1 (tok, none)
  | .incomplete => .ok r1 (tok, none)

/-- `instruction.rs` `parse_arg` (lines 125–151):
`separated_pair(symbol_bus, tag("="), symbol_bus)`, then the optional
comma-plus-whitespace separator, then `Symbol::try_from(..).unwrap()` on both
tokens (the outer `Option` is `none` when an `unwrap` would panic), and
finally `remainder.trim_start()`. -/
def parse_arg (s : List Char) : Option (PRes Argument) :=
  match symbol_bus s with
  | .ok r1 (itok, ibus) =>
    match tagP "=".data r1 with
    | .ok r2 _ =>
      match symbol_bus r2 with
      | .ok r3 (etok, ebus) =>
        let r4 := match r3 with
          | ',' :: rest => rest.dropWhile isAsciiWsB
          | other => other
        match Symbol.tryFrom itok, Symbol.tryFrom etok with
        | .ok i, .ok e =>
          some (.ok (r4.dropWhile isRustWhitespaceB) ⟨i, ibus, e, ebus⟩)
        | _, _ => none
      | .err => some .err
      | .fail i => some (.fail i)
      | .incomplete => some .incomplete
    | .err => some .err
    | .fail i => some (.fail i)
    | .incomplete => some .incomplete
  | .err => some .err
  | .fail i => some (.fail i)
  | .incomplete => some .incomplete

/-- nom `many0(complete(parse_arg))`: repeats until the inner parser returns
`Error` (`complete` also demotes `Incomplete`); a `Failure` propagates; a
success that consumed nothing is rejected (nom's infinite-loop guard).  The
`fuel` argument only bounds the recursion: every iteration strictly consumes
input, so fuel `s.length + 1` is never exhausted. -/
def many0_args : Nat → List Char → Option (PRes (List Argument))
  | 0, _ => some .err
  | fuel + 1, s =>
    match parse_arg s with
    | none => none
    | some (.ok rem v) =>
      if rem.length < s.length then
        match many0_args fuel rem with
        | none => none
        | some (.ok rem2 vs) => some (.ok rem2 (v :: vs))
        | some e => some e
      else some .err
    | some (.fail i) => some (.fail i)
    | some .err => some (.ok s [])
    | some .incomplete => some (.ok s [])

/-- `instruction.rs` `parse_args`:
`delimited(char('('), many0(complete(parse_arg)), char(')'))`. -/
def parse_args (s : List Char) : Option (PRes (List Argument)) :=
  match charP '(' s with
  | .ok s1 _ =>
    match many0_args (s1.length + 1) s1 with
    | none => none
    | some (.ok s2 args) =>
      match charP ')' s2 with
      | .ok s3 _ => some (.ok s3 args)
      | .err => some .err
      | .fail i => some (.fail i)
      | .incomplete => some .incomplete
    | some .err => some .err
    | some (.fail i) => some (.fail i)
    | some .incomplete => some .incomplete
  | .err => some .err
  | .fail i => some (.fail i)
  | .incomplete => some .incomplete

/-- The structural phase of `parse_instruction` (line 158–159):
`tuple((symbol, parse_args, multispace0, char(';'), multispace0))`, producing
the chip-name token and the argument list. -/
def instr_structural (s : List Char) : Option (PRes (List Char × List Argument)) :=
  let (r1, name) := symbol s
  match parse_args r1 with
  | none => none
  | some (.ok r2 args) =>
    match charP ';' (multispace0 r2) with
    | .ok r4 _ => some (.ok (multispace0 r4) (name, args))
    | .err => some .err
    | .fail i => some (.fail i)
    | .incomplete => some .incomplete
  | some .err => some .err
  | some (.fail i) => some (.fail i)
  | some .incomplete => some .incomplete

/-- `instruction.rs` `parse_instruction` (lines 157–175): the structural
phase, then the chip-name token must classify as `Symbol::Name`; any other
classification is `Err(Failure)` carrying the name token
(`ErrorKind::Alpha`). -/
def parse_instruction (s : List Char) : Option (PRes Instruction) :=
  match instr_structural s with
  | none => none
  | some (.ok rem (name, args)) =>
    match Symbol.tryFrom name with
    | .ok (.Name x) => some (.ok rem ⟨.Name x, args⟩)
    | _ => some (.fail name)
  | some .err => some .err
  | some (.fail i) => some (.fail i)
  | some .incomplete => some .incomplete

/-! ### `mod.rs` Span tokenizer and comment skipping -/

/-- `mod.rs` `symbol` (lines 96–102): `delimited(multispace0,
take_while1(alnum), multispace0)`.  `take_while1` fails on an empty match, so
this tokenizer never produces an empty token. -/
def symbolSpan (s : List Char) : PRes (List Char) :=
  let s1 := multispace0 s
  let tok := s1.takeWhile isAlnumB
  if tok.isEmpty then .err
  else .ok (multispace0 (s1.dropWhile isAlnumB)) tok

/-- Whether `pat` is an initial segment of `s`. -/
def startsWithL : List Char → List Char → Bool
  | [], _ => true
  | _ :: _, [] => false
  | p :: ps, c :: cs => c = p && startsWithL ps cs

/-- nom `bytes::complete::take_until(pat)`: split the input at the first
occurrence of `pat`, returning `(consumed, remainder-starting-with-pat)`;
`none` when `pat` does not occur. -/
def takeUntilRS (pat : List Char) : List Char → Option (List Char × List Char)
  | [] => if startsWithL pat [] then some ([], []) else none
  | c :: cs =>
    if startsWithL pat (c :: cs) then some ([], c :: cs)
    else
      match takeUntilRS pat cs with
      | some (a, b) => some (c :: a, b)
      | none => none

/-- One iteration of `generic_space1`'s `alt`: `multispace1`, or a
`/* block */` comment, or a `// line` comment (which needs at least one
character after `//` before the newline, per `is_not("\n")`).  Returns the
remaining input, or `none` when no alternative matches. -/
def gsStep (s : List Char) : Option (List Char) :=
  if !(s.takeWhile isMultispaceB).isEmpty then some (s.dropWhile isMultispaceB)
  else if startsWithL "/*".data s then
    match takeUntilRS "*/".data (s.drop 2) with
    | some (_, rest) => some (rest.drop 2)
    | none => none
  else if startsWithL "//".data s then
    if ((s.drop 2).takeWhile isNotNlB).isEmpty then none
    else some ((s.drop 2).dropWhile isNotNlB)
  else none

/-- `mod.rs` `generic_space1` (lines 125–133): `many0` of `gsStep`.  Despite
its name it succeeds on zero matches (`many0`); a success that consumed
nothing would be rejected by nom's guard (`err` below), but every alternative
consumes at least one character.  `fuel` only bounds the recursion and
`s.length + 1` is never exhausted. -/
def generic_space1 : Nat → List Char → PRes Unit
  | 0, s => .ok s ()
  | fuel + 1, s =>
    match gsStep s with
    | some rem => if rem.length < s.length then generic_space1 fuel rem else .err
    | none => .ok s ()

/-- `mod.rs` `generic_space0`: `opt(generic_space1)`. -/
def generic_space0 (s : List Char) : PRes Unit :=
  match generic_space1 (s.length + 1) s with
  | .ok r _ => .ok r ()
  | _ => .ok s ()

/-! ### The chip model (`model/builtin.rs`, `model/chip/native/mod.rs`) -/

/-- The four pin maps of a chip interface (`HashMap<String, BusRange>` in the
source, modelled as association lists). -/
structure Interface where
  com_in : List (List Char × BusRange)
  com_out : List (List Char × BusRange)
  seq_in : List (List Char × BusRange)
  seq_out : List (List Char × BusRange)

/-- `ConnEdge` (`native/mod.rs` lines 10–22). -/
inductive ConnEdge where
  | Combinatorial (in_range : BusRange) (out_range : BusRange) (buf : List Bool)
  | Sequential (in_range : BusRange) (out_range : BusRange)
      (waiting : List Bool) (buf : List Bool)

mutual

/-- A built chip (`Box<dyn Chip>` / `Box<dyn ChipObject>`), closed over the
two implementors present in the sources: the `Nand` builtin and
`NativeChip`. -/
inductive Chip where
  | nand : Chip
  | native : NativeChip → Chip

/-- `NativeChip` (`native/mod.rs` lines 25–28): a `petgraph::Graph` of owned
sub-chips and connection edges (node list plus edge list indexed by node
position), and the chip's own interface. -/
inductive NativeChip where
  | mk (conn_graph_nodes : List Chip)
      (conn_graph_edges : List (Nat × Nat × ConnEdge))
      (interface : Interface) : NativeChip

end

/-- `NativeChip::eval` (`native/mod.rs` lines 39–41): the body is `todo!()`,
which panics unconditionally; `none` models the panic. -/
def NativeChip.eval : NativeChip → List Bool → Option (List Bool) :=
  fun _ _ => none

/-- `NativeChip::clock` (`native/mod.rs` lines 35–37): the body is `todo!()`,
which panics unconditionally; `none` models the panic. -/
def NativeChip.clock : NativeChip → Option NativeChip :=
  fun _ => none

/-- `builtin.rs` `get_builtin` (lines 6–11): `"Nand"` maps to a fresh `Nand`
instance, every other name to `None`. -/
def get_builtin (name : List Char) : Option Chip :=
  if name = "Nand".data then some Chip.nand else none

/-- `Nand::eval` (`builtin.rs` lines 33–35): `vec![!(pins[0] && pins[1])]`.
Indexing `pins[0]`/`pins[1]` panics when fewer than two inputs are supplied;
`none` models that panic. -/
def Nand.eval (pins : List Bool) : Option (List Bool) :=
  match pins with
  | a :: b :: _ => some [!(a && b)]
  | _ => none

/-- `Nand::clock` (`builtin.rs` lines 30–32): the body is empty and `Nand` is
a unit struct, so clocking leaves the (trivial) state unchanged. -/
def Nand.clock (state : Unit) : Unit := state

/-- `Nand::interface` (`builtin.rs` lines 16–28). -/
def Nand.interface : Interface :=
  { com_in := [("a".data, ⟨0, 0⟩), ("b".data, ⟨1, 1⟩)]
    com_out := [("out".data, ⟨1, 1⟩)]
    seq_in := []
    seq_out := [] }

/-- The bracketed bus-range source text `"[" ++ s ++ ".." ++ e ++ "]"`. -/
def busInput (s e : List Char) : List Char :=
  '[' :: (s ++ '.' :: '.' :: (e ++ [']']))

/-! ### Helper lemmas -/

theorem all_takeWhile (p : Char → Bool) (l : List Char) :
    (l.takeWhile p).all p = true := by
  induction l with
  | nil => rfl
  | cons c cs ih =>
    by_cases h : p c = true
    · simp [List.takeWhile, h, ih]
    · simp [List.takeWhile, Bool.eq_false_iff.mpr h]

theorem takeWhile_app_of_all {p : Char → Bool} {xs : List Char}
    (ys : List Char) (h : xs.all p = true) :
    (xs ++ ys).takeWhile p = xs ++ ys.takeWhile p := by
  induction xs with
  | nil => rfl
  | cons c cs ih =>
    rw [List.all_cons, Bool.and_eq_true] at h
    simp [List.takeWhile, h.1, ih h.2]

theorem dropWhile_app_of_all {p : Char → Bool} {xs : List Char}
    (ys : List Char) (h : xs.all p = true) :
    (xs ++ ys).dropWhile p = ys.dropWhile p := by
  induction xs with
  | nil => rfl
  | cons c cs ih =>
    rw [List.all_cons, Bool.and_eq_true] at h
    simp [List.dropWhile, h.1, ih h.2]

theorem all_mono {p q : Char → Bool} {l : List Char}
    (hpq : ∀ c, p c = true → q c = true) (h : l.all p = true) :
    l.all q = true := by
  rw [List.all_eq_true] at h ⊢
  exact fun c hc => hpq c (h c hc)

/-- An alphanumeric character is ASCII, is not (ASCII) whitespace, is not a
`multispace` character, is not `']'`, and is not `'.'` or `'+'`. -/
theorem alnum_facts {c : Char} (h : isAlnumB c = true) :
    isAsciiB c = true ∧ isAsciiWsB c = false ∧ isMultispaceB c = false ∧
      isNotRBrkB c = true ∧ c ≠ '.' ∧ c ≠ '+' := by
  simp only [isAlnumB, isAsciiB, isAsciiWsB, isMultispaceB, isNotRBrkB,
    decide_eq_true_eq, decide_eq_false_iff_not] at h ⊢
  refine ⟨by omega, by omega, by omega, by omega, ?_, ?_⟩ <;>
    · rintro rfl; revert h; decide

/-- A decimal digit is alphanumeric. -/
theorem digit_alnum {c : Char} (h : isDigitB c = true) : isAlnumB c = true := by
  simp only [isDigitB, isAlnumB, decide_eq_true_eq] at h ⊢
  omega

/-- The token produced by the `instruction.rs` `symbol` tokenizer is all
alphanumeric. -/
theorem symbol_tok_alnum (s : List Char) : (symbol s).2.all isAlnumB = true := by
  simp [symbol, all_takeWhile isAlnumB (multispace0 s)]

/-- Text that is all alphanumeric passes the `Symbol` construction guard. -/
theorem symbolTextOk_of_alnum {t : List Char} (h : t.all isAlnumB = true) :
    symbolTextOk t = true := by
  unfold symbolTextOk
  rw [Bool.and_eq_true]
  exact ⟨all_mono (fun c hc => (alnum_facts hc).1) h,
    all_mono (fun c hc => by simp [(alnum_facts hc).2.1]) h⟩

/-- `Symbol::try_from` succeeds on any text passing the guard. -/
theorem tryFrom_ok_of_textOk {t : List Char} (h : symbolTextOk t = true) :
    ∃ sym, Symbol.tryFrom t = .ok sym := by
  unfold Symbol.tryFrom
  rw [if_pos h]
  cases from_str_radix usizeMax t with
  | some n => exact ⟨_, rfl⟩
  | none =>
    by_cases h1 : t = "true".data
    · exact ⟨_, by rw [if_pos h1]⟩
    · by_cases h2 : t = "false".data
      · exact ⟨_, by rw [if_neg h1, if_pos h2]⟩
      · exact ⟨_, by rw [if_neg h1, if_neg h2]⟩

/-- A token returned by `symbol_bus` comes from the `symbol` tokenizer and is
therefore all alphanumeric. -/
theorem symbol_bus_tok_alnum {s r tok : List Char} {b : Option BusRange}
    (h : symbol_bus s = .ok r (tok, b)) : tok.all isAlnumB = true := by
  have hs := symbol_tok_alnum s
  unfold symbol_bus at h
  rcases he : symbol s with ⟨r1, t⟩
  rw [he] at h hs
  simp only at h hs
  cases hbr : bus_range r1 <;> rw [hbr] at h <;>
    simp_all [PRes.ok.injEq, Prod.mk.injEq]

/-! ### Claim theorems -/

/-- Claim C1 (code_bug evidence): `NativeChip::eval` and `NativeChip::clock`
are `todo!()` and panic unconditionally (modelled as `none`), already on the
empty-graph chip with empty inputs — the claim says a built chip's
`eval`/`clock` complete normally. -/
theorem c1_native_eval_clock_panic :
    NativeChip.eval (.mk [] [] ⟨[], [], [], []⟩) [] = none ∧
    NativeChip.clock (.mk [] [] ⟨[], [], [], []⟩) = none :=
  ⟨rfl, rfl⟩

/-- Claim C2: the builtin `Nand`'s `eval` implements the NAND truth table on
two-element inputs — `eval([a,b]) = [!(a && b)]`, with the four concrete rows
of the table — and `clock` is a no-op on the (unit) state. -/
theorem c2_nand_truth_table :
    (∀ a b : Bool, Nand.eval [a, b] = some [!(a && b)]) ∧
    Nand.eval [true, true] = some [false] ∧
    Nand.eval [true, false] = some [true] ∧
    Nand.eval [false, true] = some [true] ∧
    Nand.eval [false, false] = some [true] ∧
    (∀ u : Unit, Nand.clock u = u) :=
  ⟨fun _ _ => rfl, rfl, rfl, rfl, rfl, fun _ => rfl⟩

/-- Claim C5: bus-range parsing is whitespace/newline-insensitive — the three
quoted inputs (the third with literal newlines) all parse to
`{start: 0, end: 1}` with empty remainder. -/
theorem c5_bus_range_whitespace :
    bus_range "[0..1]".data = .ok [] ⟨0, 1⟩ ∧
    bus_range "[ 0 .. 1 ]".data = .ok [] ⟨0, 1⟩ ∧
    bus_range "[0\n..\n1]".data = .ok [] ⟨0, 1⟩ := by
  refine ⟨by decide, by decide, by decide⟩

/-- Claim C9: the builtin catalog contains exactly the `Nand` primitive —
`get_builtin("Nand")` is `Some` (a fresh NAND instance) and every other name
yields `None`. -/
theorem c9_builtin_catalog (name : List Char) (h : name ≠ "Nand".data) :
    get_builtin "Nand".data = some Chip.nand ∧ get_builtin name = none := by
  refine ⟨by simp [get_builtin], by simp [get_builtin, h]⟩

/-- Witness for C9, at the concrete non-NAND name `"Or"`. -/
theorem c9_builtin_catalog_witness :
    get_builtin "Nand".data = some Chip.nand ∧ get_builtin "Or".data = none :=
  c9_builtin_catalog "Or".data (by decide)

/-- Claim C3 counterexample: `"+1"` is ASCII, whitespace-free, not all-decimal
digits and not a boolean literal, so the claim classifies it as
`Name("+1")` — but `usize::from_str_radix` accepts the leading `'+'` and the
code returns `Number(1)`. -/
theorem c3_counterexample :
    ("+1".data.all isAsciiB = true ∧
     "+1".data.all (fun c => !isAsciiWsB c) = true ∧
     "+1".data.all isDigitB = false ∧
     "+1".data ≠ "true".data ∧ "+1".data ≠ "false".data) ∧
    Symbol.tryFrom "+1".data = .ok (.Number 1) ∧
    Symbol.tryFrom "+1".data ≠ .ok (.Name "+1".data) := by
  refine ⟨by decide, by decide, by decide⟩

/-- Claim C4 counterexample: constructing a `Symbol` from the empty string
does not fail — it succeeds with `Name("")` (the guard is vacuously true and
emptiness is never checked). -/
theorem c4_counterexample :
    Symbol.tryFrom [] = .ok (.Name []) ∧ Symbol.tryFrom [] ≠ .badSymbol [] := by
  refine ⟨by decide, by decide⟩

/-- A decimal digit is not the sign character `'+'`. -/
theorem digit_ne_plus {c : Char} (h : isDigitB c = true) : c ≠ '+' := by
  rintro rfl
  exact absurd h (by decide)

/-- Claim C3 amended: for ASCII, whitespace-free text the result is
`Number(n)` exactly per `usize::from_str_radix` base 10 — one or more decimal
digits whose value is at most `usize::MAX`, optionally preceded by a single
`'+'`; an all-digit text whose value exceeds `usize::MAX` yields `Name`, as
does any other text that is not exactly `"true"`/`"false"`; text failing the
ASCII/whitespace guard yields `BadSymbol`. -/
theorem c3_amended_classification (s : List Char) :
    (symbolTextOk s = true → s.all isDigitB = true → s ≠ [] →
        decimalValue s ≤ usizeMax →
        Symbol.tryFrom s = .ok (.Number (decimalValue s))) ∧
    (symbolTextOk s = true → s.all isDigitB = true → usizeMax < decimalValue s →
        Symbol.tryFrom s = .ok (.Name s)) ∧
    (∀ t, s = '+' :: t → symbolTextOk s = true → t ≠ [] →
        t.all isDigitB = true → decimalValue t ≤ usizeMax →
        Symbol.tryFrom s = .ok (.Number (decimalValue t))) ∧
    (s = "true".data → Symbol.tryFrom s = .ok (.Value .True)) ∧
    (s = "false".data → Symbol.tryFrom s = .ok (.Value .False)) ∧
    (symbolTextOk s = true → from_str_radix usizeMax s = none →
        s ≠ "true".data → s ≠ "false".data →
        Symbol.tryFrom s = .ok (.Name s)) ∧
    (symbolTextOk s = false → Symbol.tryFrom s = .badSymbol s) := by
  refine ⟨?_, ?_, ?_, ?_, ?_, ?_, ?_⟩
  · intro hok hdig hne hle
    obtain ⟨c, rest, rfl⟩ : ∃ c rest, s = c :: rest := by
      cases s with
      | nil => exact absurd rfl hne
      | cons c rest => exact ⟨c, rest, rfl⟩
    have hcd : isDigitB c = true := by
      have h' := hdig
      rw [List.all_cons, Bool.and_eq_true] at h'
      exact h'.1
    have hfs : from_str_radix usizeMax (c :: rest) =
        some (decimalValue (c :: rest)) := by
      simp [from_str_radix, digit_ne_plus hcd, hdig, hle]
    simp [Symbol.tryFrom, hok, hfs]
  · intro hok hdig hgt
    cases s with
    | nil => exact absurd hgt (by simp [decimalValue])
    | cons c rest =>
      have hcd : isDigitB c = true := by
        have h' := hdig
        rw [List.all_cons, Bool.and_eq_true] at h'
        exact h'.1
      have hfs : from_str_radix usizeMax (c :: rest) = none := by
        simp [from_str_radix, digit_ne_plus hcd, hdig, Nat.not_le.mpr hgt]
      have htr : (c :: rest) ≠ "true".data := by
        intro he
        rw [he] at hdig
        exact absurd hdig (by decide)
      have hfa : (c :: rest) ≠ "false".data := by
        intro he
        rw [he] at hdig
        exact absurd hdig (by decide)
      simp [Symbol.tryFrom, hok, hfs, htr, hfa]
  · intro t hst hok ht hdig hle
    subst hst
    have hemp : t.isEmpty = false := by
      cases t with
      | nil => exact absurd rfl ht
      | cons _ _ => rfl
    have hfs : from_str_radix usizeMax ('+' :: t) = some (decimalValue t) := by
      simp [from_str_radix, hemp, hdig, hle]
    simp [Symbol.tryFrom, hok, hfs]
  · intro h; subst h; decide
  · intro h; subst h; decide
  · intro hok hnone h1 h2
    simp [Symbol.tryFrom, hok, hnone, h1, h2]
  · intro hbad
    simp [Symbol.tryFrom, hbad]

/-- Witness for C3 amended, at the all-digit text `"12"`. -/
theorem c3_amended_witness :
    Symbol.tryFrom "12".data = .ok (.Number (decimalValue "12".data)) :=
  (c3_amended_classification "12".data).1 (by decide) (by decide) (by decide)
    (by decide)

/-- Claim C4 amended: constructing a `Symbol` from the empty string succeeds
with `Name("")` — emptiness is not checked by `Symbol` construction; the
empty-text invariant nevertheless holds for every token of the
location-tracking tokenizer, whose `take_while1` never yields an empty
token. -/
theorem c4_amended (s rem tok : List Char) (h : symbolSpan s = .ok rem tok) :
    Symbol.tryFrom [] = .ok (.Name []) ∧ tok ≠ [] := by
  refine ⟨by decide, ?_⟩
  unfold symbolSpan at h
  by_cases he : ((multispace0 s).takeWhile isAlnumB).isEmpty = true
  · rw [if_pos he] at h
    exact PRes.noConfusion h
  · rw [if_neg he] at h
    obtain ⟨-, htok⟩ := PRes.ok.inj h
    subst htok
    simp only [List.isEmpty_iff] at he
    exact he

/-- Witness for C4 amended, at the input `"ab"`. -/
theorem c4_amended_witness :
    Symbol.tryFrom [] = .ok (.Name []) ∧ "ab".data ≠ [] :=
  c4_amended "ab".data [] "ab".data (by decide)

/-- Claim C8 counterexample: the `symbol` token parser itself only skips
`multispace0`, not comments — `"foo"` tokenizes but `"/* c */foo"` makes the
same parser fail, contradicting "inserting a comment at a token boundary
yields the same parse result". -/
theorem c8_counterexample :
    symbolSpan "foo".data = .ok [] "foo".data ∧
    symbolSpan "/* c */foo".data = .err := by
  refine ⟨by decide, by decide⟩

/-- A streaming `char(c)` on input starting with `c` consumes it. -/
theorem charP_self (c : Char) (l : List Char) : charP c (c :: l) = .ok l () := by
  simp [charP]

/-- Claim C6: on a bus-range input `"[" s ".." e "]"` with alphanumeric bound
tokens, `bus_range` fails with a fatal (`Failure`) error carrying the first
bound whose text does not parse as a `u16` (start reported first), and
succeeds with `BusRange {start, end}` exactly when both bounds fit. -/
theorem c6_bus_range_bounds (s e : List Char)
    (hs : s.all isAlnumB = true) (he : e.all isAlnumB = true) :
    (from_str_radix u16Max s = none → bus_range (busInput s e) = .fail s) ∧
    (∀ n, from_str_radix u16Max s = some n → from_str_radix u16Max e = none →
        bus_range (busInput s e) = .fail e) ∧
    (∀ n m, from_str_radix u16Max s = some n →
        from_str_radix u16Max e = some m →
        bus_range (busInput s e) = .ok [] ⟨n, m⟩) := by
  have hdot : isNotRBrkB '.' = true := by decide
  have hrb : ¬ (isNotRBrkB ']' = true) := by decide
  have hdotAl : ¬ (isAlnumB '.' = true) := by decide
  have hdotMs : ¬ (isMultispaceB '.' = true) := by decide
  have hlbMs : ¬ (isMultispaceB '[' = true) := by decide
  have hsP : s.all isNotRBrkB = true :=
    all_mono (fun c hc => (alnum_facts hc).2.2.2.1) hs
  have heP : e.all isNotRBrkB = true :=
    all_mono (fun c hc => (alnum_facts hc).2.2.2.1) he
  have htake : List.takeWhile isNotRBrkB (s ++ '.' :: '.' :: (e ++ [']']))
      = s ++ '.' :: '.' :: e := by
    rw [takeWhile_app_of_all _ hsP, List.takeWhile_cons, if_pos hdot,
      List.takeWhile_cons, if_pos hdot, takeWhile_app_of_all _ heP,
      List.takeWhile_cons, if_neg hrb, List.append_nil]
  have hdrop : List.dropWhile isNotRBrkB (s ++ '.' :: '.' :: (e ++ [']']))
      = [']'] := by
    rw [dropWhile_app_of_all _ hsP, List.dropWhile_cons, if_pos hdot,
      List.dropWhile_cons, if_pos hdot, dropWhile_app_of_all _ heP,
      List.dropWhile_cons, if_neg hrb]
  have hne : (s ++ '.' :: '.' :: e).isEmpty = false := by
    cases s <;> rfl
  have hisnot : is_not_rb (s ++ '.' :: '.' :: (e ++ [']'])) =
      .ok [']'] (s ++ '.' :: '.' :: e) := by
    simp only [is_not_rb, htake, hdrop, hne, Bool.false_eq_true, if_false]
  have hms : multispace0 (s ++ '.' :: '.' :: e) = s ++ '.' :: '.' :: e := by
    unfold multispace0
    cases s with
    | nil => rw [List.nil_append, List.dropWhile_cons, if_neg hdotMs]
    | cons c cs =>
      have hc : isAlnumB c = true := by
        have h' := hs
        rw [List.all_cons, Bool.and_eq_true] at h'
        exact h'.1
      rw [List.cons_append, List.dropWhile_cons,
        if_neg (by simp [(alnum_facts hc).2.2.1])]
  have hdotdrop : multispace0 ('.' :: '.' :: e) = '.' :: '.' :: e := by
    unfold multispace0
    rw [List.dropWhile_cons, if_neg hdotMs]
  have hsym1 : symbol (s ++ '.' :: '.' :: e) = ('.' :: '.' :: e, s) := by
    have ht : List.takeWhile isAlnumB (s ++ '.' :: '.' :: e) = s := by
      rw [takeWhile_app_of_all _ hs, List.takeWhile_cons, if_neg hdotAl,
        List.append_nil]
    have hd : List.dropWhile isAlnumB (s ++ '.' :: '.' :: e)
        = '.' :: '.' :: e := by
      rw [dropWhile_app_of_all _ hs, List.dropWhile_cons, if_neg hdotAl]
    show (multispace0 ((multispace0 (s ++ '.' :: '.' :: e)).dropWhile isAlnumB),
        (multispace0 (s ++ '.' :: '.' :: e)).takeWhile isAlnumB)
      = ('.' :: '.' :: e, s)
    rw [hms, ht, hd, hdotdrop]
  have hsym2 : symbol e = ([], e) := by
    have h2 : List.takeWhile isAlnumB e = e := by
      have h' := takeWhile_app_of_all (p := isAlnumB) [] he
      simpa using h'
    have h3 : List.dropWhile isAlnumB e = [] := by
      have h' := dropWhile_app_of_all (p := isAlnumB) [] he
      simpa using h'
    have h1 : multispace0 e = e := by
      unfold multispace0
      cases e with
      | nil => rfl
      | cons c cs =>
        have hc : isAlnumB c = true := by
          have h' := he
          rw [List.all_cons, Bool.and_eq_true] at h'
          exact h'.1
        rw [List.dropWhile_cons, if_neg (by simp [(alnum_facts hc).2.2.1])]
    show (multispace0 ((multispace0 e).dropWhile isAlnumB),
        (multispace0 e).takeWhile isAlnumB) = ([], e)
    rw [h1, h2, h3]
    rfl
  have htag : tagP "..".data ('.' :: '.' :: e) = .ok e () := rfl
  have hnilms : multispace0 ([] : List Char) = [] := rfl
  have hmain : bus_range (busInput s e) =
      (match from_str_radix u16Max s, from_str_radix u16Max e with
       | some a, some b => .ok [] (⟨a, b⟩ : BusRange)
       | none, _ => .fail s
       | some _, none => .fail e) := by
    have h0 : multispace0 (busInput s e) = busInput s e := by
      unfold busInput multispace0
      rw [List.dropWhile_cons, if_neg hlbMs]
    unfold bus_range
    rw [h0]
    unfold busInput
    simp only [charP_self, hisnot, hsym1, hsym2, htag, hnilms]
  refine ⟨?_, ?_, ?_⟩
  · intro h
    rw [hmain, h]
  · intro n h1 h2
    rw [hmain, h1, h2]
  · intro n m h1 h2
    rw [hmain, h1, h2]

/-- Witness for C6, at the in-range bounds `"0"` and `"1"`. -/
theorem c6_bus_range_bounds_witness :
    bus_range (busInput "0".data "1".data) = .ok [] ⟨0, 1⟩ :=
  (c6_bus_range_bounds "0".data "1".data (by decide) (by decide)).2.2 0 1
    (by decide) (by decide)

/-- Claim C7: whenever the structural phase of `parse_instruction` succeeds
but the leading symbol classifies as a numeric or boolean literal, the result
is a hard (`Failure`) parse error carrying the name token; and
`parse_instruction` succeeds only when the chip name resolves to
`Symbol::Name`. -/
theorem c7_instruction_name (s : List Char) :
    (∀ rem name args, instr_structural s = some (.ok rem (name, args)) →
        ((∃ n, Symbol.tryFrom name = .ok (.Number n)) ∨
         (∃ v, Symbol.tryFrom name = .ok (.Value v))) →
        parse_instruction s = some (.fail name)) ∧
    (∀ rem inst, parse_instruction s = some (.ok rem inst) →
        ∃ x, inst.chip_name = .Name x) := by
  constructor
  · intro rem name args hstruct hcls
    rcases hcls with ⟨n, hn⟩ | ⟨v, hv⟩
    · simp [parse_instruction, hstruct, hn]
    · simp [parse_instruction, hstruct, hv]
  · intro rem inst h
    unfold parse_instruction at h
    split at h
    · exact Option.noConfusion h
    · split at h
      · simp only [Option.some.injEq, PRes.ok.injEq] at h
        obtain ⟨-, h2⟩ := h
        subst h2
        exact ⟨_, rfl⟩
      · simp at h
    · simp at h
    · simp at h
    · simp at h

/-- Witness for C7, at the input `"123();"` whose leading symbol is the
numeric literal `123`. -/
theorem c7_instruction_name_witness :
    parse_instruction "123();".data = some (.fail "123".data) :=
  (c7_instruction_name "123();".data).1 [] "123".data [] (by decide)
    (Or.inl ⟨123, by decide⟩)

/-- Claim C8 amended: plain whitespace is transparently skippable before a
symbol (the tokenizer itself trims `multispace0`), and `//`-line and
`/* block */` comments are consumed only by `generic_space0`/`generic_space1`
— which the chip-level grammar inserts between larger constructs — not by the
token parsers; inserting a comment directly before a symbol makes the symbol
parse fail. -/
theorem c8_amended_skipping :
    (∀ ws s : List Char, ws.all isMultispaceB = true →
        symbolSpan (ws ++ s) = symbolSpan s) ∧
    generic_space0 "/* c */foo".data = .ok "foo".data () ∧
    generic_space0 "// c\nfoo".data = .ok "foo".data () ∧
    symbolSpan "/* c */foo".data = .err := by
  refine ⟨?_, by decide, by decide, by decide⟩
  intro ws s h
  unfold symbolSpan multispace0
  rw [dropWhile_app_of_all s h]

/-- Witness for C8 amended, inserting the whitespace `" "` before `"foo"`. -/
theorem c8_amended_skipping_witness :
    symbolSpan (" ".data ++ "foo".data) = symbolSpan "foo".data :=
  c8_amended_skipping.1 " ".data "foo".data (by decide)

/-- The two `Symbol::try_from(..).unwrap()` calls in `parse_arg` never panic:
`parse_arg` never reaches the panic (`none`) outcome on any input. -/
theorem parse_arg_ne_none (t : List Char) : parse_arg t ≠ none := by
  unfold parse_arg
  split
  next r1 itok ibus h1 =>
    split
    next r2 u h2 =>
      split
      next r3 etok ebus h3 =>
        obtain ⟨si, hsi⟩ := tryFrom_ok_of_textOk
          (symbolTextOk_of_alnum (symbol_bus_tok_alnum h1))
        obtain ⟨se, hse⟩ := tryFrom_ok_of_textOk
          (symbolTextOk_of_alnum (symbol_bus_tok_alnum h3))
        rw [hsi, hse]
        simp
      next => simp
      next => simp
      next => simp
    next => simp
    next => simp
    next => simp
  next => simp
  next => simp
  next => simp

/-- Claim C10: every token produced by the `instruction.rs` `symbol`
tokenizer is all ASCII-alphanumeric, `Symbol::try_from` succeeds on such a
token, and therefore the `unwrap`s inside `parse_arg` never panic — on every
input `parse_arg` returns a parse result (never the panic outcome). -/
theorem c10_parse_arg_no_panic (s rem tok : List Char)
    (h : symbol s = (rem, tok)) :
    tok.all isAlnumB = true ∧ (∃ sym, Symbol.tryFrom tok = .ok sym) ∧
    ∀ t, parse_arg t ≠ none := by
  have htok : tok.all isAlnumB = true := by
    have h' := symbol_tok_alnum s
    rw [h] at h'
    exact h'
  exact ⟨htok, tryFrom_ok_of_textOk (symbolTextOk_of_alnum htok),
    parse_arg_ne_none⟩

/-- Witness for C10, at the input `"a"` (token `"a"`). -/
theorem c10_parse_arg_no_panic_witness :
    "a".data.all isAlnumB = true ∧
    (∃ sym, Symbol.tryFrom "a".data = .ok sym) ∧
    ∀ t, parse_arg t ≠ none :=
  c10_parse_arg_no_panic "a".data [] "a".data (by decide)

end Hdl
